import Mathlib

/-!
Verification development for the KubeVela application-assemble subsystem:
the workload option chain (`pkg/controller/core.oam.dev/v1alpha2/application/assemble/options.go`)
and the utility helpers it relies on (trait naming, map merging).

The Go code is shallowly embedded: Kubernetes `unstructured.Unstructured` objects
are modelled as a record of the metadata fields the code reads plus a JSON-like
tree for the `spec` content; Go `map[string]string` (which distinguishes `nil`
from an empty map) is modelled as `Option` of an association list; fallible Go
functions return `Except String`; the one external read (`client.Reader.Get`)
is modelled as a function from (namespace, name) to `Option` of an object.
Strings are treated as sequences of characters; the Kubernetes names involved
are ASCII, where Go's byte-wise operations coincide with character-wise ones.
-/

namespace Assemble

/-- Association-list lookup, modelling Go map indexing (first binding wins;
inputs that model Go maps have unique keys). -/
def alookup {α : Type} : List (String × α) → String → Option α
  | [], _ => none
  | (k, v) :: t, key => if key = k then some v else alookup t key

/-- Association-list insert, modelling Go map assignment `m[k] = v`:
any existing binding of `k` is dropped and the new binding added.
Go maps are unordered, so only lookup-observations of the result matter. -/
def assocSet {α : Type} (m : List (String × α)) (k : String) (v : α) : List (String × α) :=
  m.filter (fun p => p.1 != k) ++ [(k, v)]

/-- JSON-like values, modelling the `map[string]interface{}` content of an
`unstructured.Unstructured` object. -/
inductive JVal : Type where
  | str (s : String)
  | bool (b : Bool)
  | num (n : Int)
  | obj (fields : List (String × JVal))
  | arr (elems : List JVal)

/-- Walk a field path inside a JSON-like value, as `unstructured.NestedFieldNoCopy`
does: descend through objects by key, `none` when a key is missing or an
intermediate value is not an object. -/
def jGet : JVal → List String → Option JVal
  | v, [] => some v
  | .obj fs, k :: rest =>
      match alookup fs k with
      | some c => jGet c rest
      | none => none
  | _, _ :: _ => none

/-- Error returned by `fieldpath.Paved.SetValue` when an intermediate path
segment holds a non-object value. -/
def errNotAnObject : String := "not an object"

/-- Model of `fieldpath.Pave(content).SetBool(path, b)`: walk the path,
creating missing intermediate objects, failing on intermediate non-object
values, and set the final segment to the boolean. -/
def setBoolAtPath : JVal → List String → Bool → Except String JVal
  | _, [], b => .ok (.bool b)
  | .obj fs, k :: rest, b =>
      let child := match alookup fs k with
        | some c => c
        | none => .obj []
      match setBoolAtPath child rest b with
      | .ok c2 => .ok (.obj (assocSet fs k c2))
      | .error e => .error e
  | _, _ :: _, _ => .error errNotAnObject

/-- Model of `metav1.OwnerReference`, restricted to the fields the assemble options read
(`UID` and `BlockOwnerDeletion` are never consulted here). -/
structure OwnerRef : Type where
  apiVersion : String
  kind : String
  name : String
  controller : Option Bool
  deriving Repr, DecidableEq

/-- Model of `unstructured.Unstructured`, modelled as the metadata fields the assemble
options read plus a JSON-like tree `spec` for the `spec` content that
`PrepareWorkloadForRollout` paves. Go's nil-able `map[string]string` for
labels/annotations is `Option` of an association list (`none` = nil map). -/
structure Unstructured : Type where
  group : String
  version : String
  kind : String
  name : String
  namespc : String
  labels : Option (List (String × String))
  annots : Option (List (String × String))
  ownerReferences : List OwnerRef
  spec : JVal

/-- Go map indexing with the zero-value default: `m[k]` on a possibly-nil
`map[string]string` returns `""` when the map is nil or the key absent. -/
def goMapGet (m : Option (List (String × String))) (k : String) : String :=
  match m with
  | none => ""
  | some l => (alookup l k).getD ""

/-- Model of `metav1.GetControllerOf`: the first owner reference whose `Controller`
field is a non-nil pointer to `true`. Its doc states it returns a pointer to a
COPY of that reference (and `Unstructured.GetOwnerReferences` itself builds
fresh structs from the underlying map), so mutating the result never writes
back into the object. -/
def GetControllerOf (wl : Unstructured) : Option OwnerRef :=
  wl.ownerReferences.find? (fun r => r.controller == some true)

/-- Model of `kruisev1alpha1.GroupVersion.Group` (openkruise). -/
def kruiseGroup : String := "apps.kruise.io"

/-- Model of `schema.GroupVersionKind.String()`: "group/version, Kind=kind". -/
def gvkString (wl : Unstructured) : String :=
  wl.group ++ "/" ++ wl.version ++ ", Kind=" ++ wl.kind

/-- The error built at the bottom of `PrepareWorkloadForRollout` for a
workload whose group/kind the option does not know how to prepare. -/
def unknownTypeMsg (wl : Unstructured) : String :=
  "we do not know how to prepare `" ++ wl.name ++ "` as it has an unknown type " ++ gvkString wl

/-- Model of `PrepareWorkloadForRollout` (the `WorkloadOptionFn` it returns), from
`assemble/options.go`. The outer `Option` models partiality: `none` is the
nil-pointer-dereference panic on `ownerRef.Controller = pointer.BoolPtr(false)`
when `metav1.GetControllerOf` returned nil. When it returns a copy, the
assignment mutates only that copy, so the workload's own `ownerReferences`
are left untouched by this option; the kind dispatch then sets the
kind-specific pause field via the paved content (which aliases the object, so
a successful `SetBool` is an in-place update of `spec`). -/
def PrepareWorkloadForRollout (wl : Unstructured) : Option (Except String Unstructured) :=
  match GetControllerOf wl with
  | none => none
  | some _ =>
    some (
      if wl.group = kruiseGroup ∧ wl.kind = "CloneSet" then
        -- cloneSetDisablePath = "spec.updateStrategy.paused"
        match setBoolAtPath wl.spec ["updateStrategy", "paused"] true with
        | .ok s => .ok { wl with spec := s }
        | .error e => .error e
      else if wl.group = kruiseGroup ∧ wl.kind = "StatefulSet" then
        -- advancedStatefulSetDisablePath = "spec.updateStrategy.rollingUpdate.paused"
        match setBoolAtPath wl.spec ["updateStrategy", "rollingUpdate", "paused"] true with
        | .ok s => .ok { wl with spec := s }
        | .error e => .error e
      else if wl.group = "apps" ∧ wl.kind = "Deployment" then
        -- deploymentDisablePath = "spec.paused"
        match setBoolAtPath wl.spec ["paused"] true with
        | .ok s => .ok { wl with spec := s }
        | .error e => .error e
      else
        .error (unknownTypeMsg wl))

/-- Model of `oam.LabelAppComponentRevision` (from `pkg/oam/labels.go`, not under the
sources here; the exact string value is immaterial to the theorems). -/
def labelAppComponentRevision : String := "app.oam.dev/revision"

/-- Model of `NameNonInplaceUpgradableWorkload` (the `WorkloadOptionFn` it returns):
overwrite the workload name with the component-revision label read from the
workload's own labels; never errors and makes no external call (its embedding
takes no store argument). -/
def NameNonInplaceUpgradableWorkload (wl : Unstructured) : Except String Unstructured :=
  .ok { wl with name := goMapGet wl.labels labelAppComponentRevision }

/-! ### Helm-based workload discovery (`discoverHelmModuleWorkload`) -/

/-- Model of `common.Helm` (the `Spec.Helm` of a component): the release, already put
through `util.RawExtension2Unstructured`'s JSON unmarshalling — `none` models
raw bytes that fail to unmarshal (the wrapped "cannot get helm release" path). -/
structure Helm : Type where
  release : Option JVal

/-- Model of `v1alpha2.Component`, restricted to the only field the workload options
read: its Helm module spec (`Spec.Helm`, nil for non-Helm components). -/
structure Component : Type where
  helm : Option Helm

/-- Model of `helmapi.HelmChartNamePath` (flux2 HelmRelease chart-name field path). -/
def helmChartNamePath : List String := ["spec", "chart", "spec", "chart"]

/-- Model of `Unstructured.GetName()`: `metadata.name` as a string, `""` when absent or
not a string. -/
def jGetName (v : JVal) : String :=
  match jGet v ["metadata", "name"] with
  | some (.str s) => s
  | _ => ""

/-- Whether `needle` occurs as a contiguous run inside the second list. -/
def listInfixOf (needle : List Char) : List Char → Bool
  | [] => needle.isEmpty
  | c :: t => needle.isPrefixOf (c :: t) || listInfixOf needle t

/-- Model of `strings.Contains` on character sequences. -/
def strContains (s sub : String) : Bool :=
  listInfixOf sub.data s.data

/-- Model of `strings.TrimSuffix(s, "-")`: drop one trailing "-" when present. -/
def trimDashSuffix (s : String) : String :=
  if s.endsWith "-" then s.dropRight 1 else s

/-- The Helm default-full-name rule from `discoverHelmModuleWorkload`:
the release name itself when it contains the chart name; otherwise
releaseName-chartName, truncated to its first 63 characters (with one
trailing "-" trimmed) when longer than 63. -/
def qualifiedWorkloadName (rlsName chartName : String) : String :=
  if strContains rlsName chartName then rlsName
  else
    let q := rlsName ++ "-" ++ chartName
    if q.length > 63 then trimDashSuffix (q.take 63) else q

/-- The `client.Reader` the discovery option reads through, modelled as a map
from (namespace, name) to the live object; `none` is the not-found error. -/
def HelmStore : Type := String → String → Option Unstructured

/-- The not-found error from the reader's `Get`, propagated unchanged by
`discoverHelmModuleWorkload` (a retryable apierror in the code). -/
def errHelmWorkloadNotFound : String := "workload not found"

/-- The provenance check on the fetched object: its annotations map and labels
map are both non-nil, the `meta.helm.sh/release-name` annotation equals the
release name, `meta.helm.sh/release-namespace` equals the namespace, and the
`app.kubernetes.io/managed-by` label equals "Helm" (absent keys read as ""). -/
def helmProvenanceMatch (obj : Unstructured) (rlsName ns : String) : Bool :=
  match obj.annots, obj.labels with
  | some a, some l =>
      ((alookup a "meta.helm.sh/release-name").getD "" == rlsName) &&
      ((alookup a "meta.helm.sh/release-namespace").getD "" == ns) &&
      ((alookup l "app.kubernetes.io/managed-by").getD "" == "Helm")
  | _, _ => false

/-- The non-retryable mismatch error built when a name-matched object is found
but is not managed by the expected Helm release. -/
def helmMismatchMsg (rlsName ns : String) : String :=
  "the workload is found but not match with helm info(meta.helm.sh/release-name: " ++
    rlsName ++ ", meta.helm.sh/namespace: " ++ ns ++ ", app.kubernetes.io/managed-by: Helm)"

/-- Model of `discoverHelmModuleWorkload` from `assemble/options.go`: no-op for non-Helm
components; otherwise unmarshal the release, read the chart name, compute the
qualified workload name, fetch the live object by exactly that name in the
workload's namespace, check its Helm provenance, and on success replace the
assembled workload's entire content with the live object. -/
def discoverHelmModuleWorkload (store : HelmStore) (wl : Unstructured)
    (comp : Option Component) : Except String Unstructured :=
  match comp with
  | none => .ok wl
  | some c =>
    match c.helm with
    | none => .ok wl
    | some h =>
      match h.release with
      | none => .error "cannot get helm release from component"
      | some rls =>
        match jGet rls helmChartNamePath with
        | some (.str chartName) =>
          match store wl.namespc (qualifiedWorkloadName (jGetName rls) chartName) with
          | none => .error errHelmWorkloadNotFound
          | some obj =>
              if helmProvenanceMatch obj (jGetName rls) wl.namespc then .ok obj
              else .error (helmMismatchMsg (jGetName rls) wl.namespc)
        | _ => .error "cannot get helm chart name"

/-! ### Trait naming (`GenTraitName` / `ComputeHash` / `DeepHashObject`, pkg/oam/util) -/

/-- Model of `v1alpha2.DataOutput` (name and field path; the condition-requirement list
plays no role in any theorem here and is omitted from the model). -/
structure DataOutput : Type where
  name : String
  fieldPath : String
  deriving Repr, DecidableEq

/-- Model of `v1alpha2.DataInput` (output name it draws from and target field paths). -/
structure DataInput : Type where
  dataOutputName : String
  toFieldPaths : List String
  deriving Repr, DecidableEq

/-- Model of `v1alpha2.ComponentTrait`: the raw trait manifest (the bytes of its
`runtime.RawExtension`) plus data-output/input bindings. -/
structure ComponentTrait : Type where
  trait : List Nat
  dataOutputs : List DataOutput
  dataInputs : List DataInput
  deriving Repr, DecidableEq

/-- Model of `TraitPrefixKey`, the default middle segment of generated trait names. -/
def TraitPrefixKey : String := "trait"

/-- Model of `Dummy`, the dummy-definition marker. -/
def Dummy : String := "dummy"

def joinComma (parts : List String) : String :=
  String.intercalate ", " parts

/-- The deterministic deep print that `DeepHashObject` feeds to the hasher: a
`spew`-style, Go-syntax rendering of the full `ComponentTrait` value (struct
fields in declaration order; `SortKeys` makes map rendering deterministic, and
no maps occur in this type). Byte-exact fidelity to spew's renderer is not
asserted by any theorem — only that the print is a deterministic function of
the full value. -/
def spewPrint (ct : ComponentTrait) : String :=
  "v1alpha2.ComponentTrait\x7bTrait:runtime.RawExtension\x7bRaw:[]uint8\x7b" ++
    joinComma (ct.trait.map Nat.repr) ++
    "\x7d, Object:runtime.Object(nil)\x7d, DataOutputs:[]v1alpha2.DataOutput\x7b" ++
    joinComma (ct.dataOutputs.map (fun d =>
      "\x7bName:" ++ d.name ++ ", FieldPath:" ++ d.fieldPath ++ "\x7d")) ++
    "\x7d, DataInputs:[]v1alpha2.DataInput\x7b" ++
    joinComma (ct.dataInputs.map (fun d =>
      "\x7bValueFrom:" ++ d.dataOutputName ++ ", ToFieldPaths:[" ++
        joinComma d.toFieldPaths ++ "]\x7d")) ++
    "\x7d\x7d"

/-- The byte stream `DeepHashObject` writes into the FNV hasher for a
component trait. -/
def deepHashBytes (ct : ComponentTrait) : List Nat :=
  (spewPrint ct).data.map Char.toNat

/-- Model of `fnv.New32a` + `Write` + `Sum32`: 32-bit FNV-1a over a byte stream
(offset basis 2166136261, prime 16777619, all arithmetic mod 2^32). -/
def fnv32a (bytes : List Nat) : Nat :=
  bytes.foldl (fun h b => ((h ^^^ (b % 256)) * 16777619) % 4294967296) 2166136261

/-- The alphabet of `k8s.io/apimachinery/pkg/util/rand.SafeEncodeString`
(27 characters, no vowels and no easily-confused digits). -/
def safeAlphanums : List Char := "bcdfghjklmnpqrstvwxz2456789".data

/-- Model of `rand.SafeEncodeString`: replace every character by the alphabet entry at
its code point mod 27. -/
def SafeEncodeString (s : String) : String :=
  ⟨s.data.map (fun c => safeAlphanums.getD (c.toNat % 27) 'b')⟩

/-- Model of `ComputeHash`: FNV-32a over the deterministic deep print of the whole
component-trait value, decimal-printed and safe-encoded. -/
def ComputeHash (ct : ComponentTrait) : String :=
  SafeEncodeString (Nat.repr (fnv32a (deepHashBytes ct)))

/-- The middle segment of a generated trait name: the lower-cased trait type,
or the literal "trait" for an empty or dummy trait type. -/
def traitMiddleName (traitType : String) : String :=
  if traitType ≠ "" ∧ traitType ≠ Dummy then traitType.toLower else TraitPrefixKey

/-- Model of `GenTraitName`: componentName-middle-hash. -/
def GenTraitName (componentName : String) (ct : ComponentTrait) (traitType : String) : String :=
  componentName ++ "-" ++ traitMiddleName traitType ++ "-" ++ ComputeHash ct

/-! ### Map merging (`MergeMapOverrideWithDst`, pkg/oam/util) -/

/-- Go `map[string]string`: `none` is a nil map, `some l` a (possibly empty)
map with bindings `l` (unique keys). -/
abbrev GoStrMap : Type := Option (List (String × String))

/-- Go map lookup on a possibly-nil map, as an `Option`. -/
def goMapFind (m : GoStrMap) (k : String) : Option String :=
  match m with
  | none => none
  | some l => alookup l k

/-- Model of `MergeMapOverrideWithDst`: nil when both arguments are nil; otherwise a
fresh map filled with all of `src`'s bindings and then all of `dst`'s (so
`dst` overrides `src` on every conflicting key). -/
def MergeMapOverrideWithDst (src dst : GoStrMap) : GoStrMap :=
  match src, dst with
  | none, none => none
  | s, d =>
      some ((d.getD []).foldl (fun r p => assocSet r p.1 p.2)
        ((s.getD []).foldl (fun r p => assocSet r p.1 p.2) []))

/-- Model of `AddLabels`: merge new labels over the object's existing ones (new wins). -/
def AddLabels (wl : Unstructured) (ls : GoStrMap) : Unstructured :=
  { wl with labels := MergeMapOverrideWithDst wl.labels ls }

/-- Model of `AddAnnotations`: merge new ones over the existing ones (new wins). -/
def AddAnnotations (wl : Unstructured) (as2 : GoStrMap) : Unstructured :=
  { wl with annots := MergeMapOverrideWithDst wl.annots as2 }

/-- Model of `PassLabelAndAnnotation`: pass the parent's labels/annotation map through
to the child, parent winning conflicts. -/
def PassLabelAndAnnotation (parentObj childObj : Unstructured) : Unstructured :=
  { childObj with
    labels := MergeMapOverrideWithDst childObj.labels parentObj.labels,
    annots := MergeMapOverrideWithDst childObj.annots parentObj.annots }

/-! ### Spec-modelled fragments

The assembler itself (`NewAppManifests` / `GroupAssembledManifests` /
metadata stamping) is exercised by the test suite in the sources but its
implementation file is not among them; the definitions below are modelled
from the spec, as marked. -/

/-- Modelled from the spec: the assembler applies the naming-override option
(`NameNonInplaceUpgradableWorkload`) exactly to workloads whose kind is
flagged non-in-place-upgradable; metadata stamping has already set the
workload's name to the component name before the option chain runs. -/
def finalizeWorkloadName (inPlaceUpgradable : Bool) (wl : Unstructured) :
    Except String Unstructured :=
  if inPlaceUpgradable then .ok wl else NameNonInplaceUpgradableWorkload wl

/-- Model of `oam.LabelAppName`. -/
def labelAppName : String := "app.oam.dev/name"

/-- Model of `oam.LabelAppRevision`. -/
def labelAppRevision : String := "app.oam.dev/appRevision"

/-- Model of `oam.LabelAppRevisionHash`. -/
def labelAppRevisionHash : String := "app.oam.dev/app-revision-hash"

/-- Model of `oam.LabelAppComponent`. -/
def labelAppComponent : String := "app.oam.dev/component"

/-- Model of `oam.WorkloadTypeLabel`. -/
def workloadTypeLabel : String := "workload.oam.dev/type"

/-- Model of `oam.TraitTypeLabel`. -/
def traitTypeLabel : String := "trait.oam.dev/type"

/-- Model of `oam.LabelOAMResourceType`. -/
def labelOAMResourceType : String := "app.oam.dev/resourceType"

/-- The 7 label keys the spec requires on every assembled workload. -/
def requiredWorkloadLabelKeys : List String :=
  [labelAppName, labelAppRevision, labelAppRevisionHash, labelAppComponent,
   labelAppComponentRevision, workloadTypeLabel, labelOAMResourceType]

/-- Modelled from the spec: the assembled workload of the end-to-end example
application `test-assemble` (component `test-comp` of type `webservice`):
an apps/v1 Deployment named after the component, in namespace `default`,
carrying exactly the 7 required label keys, exactly 1 annotation, and a
controller owner reference to the Application. -/
def testCompWorkload : Unstructured :=
  { group := "apps"
    version := "v1"
    kind := "Deployment"
    name := "test-comp"
    namespc := "default"
    labels := some
      [(labelAppName, "test-assemble"),
       (labelAppRevision, "test-assemble-v1"),
       (labelAppRevisionHash, "85f7dc6d4c"),
       (labelAppComponent, "test-comp"),
       (labelAppComponentRevision, "test-comp-v1"),
       (workloadTypeLabel, "webservice"),
       (labelOAMResourceType, "WORKLOAD")]
    annots := some [("app.oam.dev/last-applied-configuration", "...")]
    ownerReferences :=
      [{ apiVersion := "core.oam.dev/v1beta1", kind := "Application",
         name := "test-assemble", controller := some true }]
    spec := .obj [] }

/-- Modelled from the spec: the two resources the `ingress` trait of the
example renders (a Service and an Ingress), stamped like the workload but
with the trait resource-role and trait-type tag. -/
def testIngressTraitResources : List Unstructured :=
  [{ testCompWorkload with
      group := "", version := "v1", kind := "Service",
      labels := some
        [(labelAppName, "test-assemble"),
         (labelAppRevision, "test-assemble-v1"),
         (labelAppRevisionHash, "85f7dc6d4c"),
         (labelAppComponent, "test-comp"),
         (labelAppComponentRevision, "test-comp-v1"),
         (traitTypeLabel, "ingress"),
         (labelOAMResourceType, "TRAIT")] },
   { testCompWorkload with
      group := "networking.k8s.io", version := "v1beta1", kind := "Ingress",
      labels := some
        [(labelAppName, "test-assemble"),
         (labelAppRevision, "test-assemble-v1"),
         (labelAppRevisionHash, "85f7dc6d4c"),
         (labelAppComponent, "test-comp"),
         (labelAppComponentRevision, "test-comp-v1"),
         (traitTypeLabel, "ingress"),
         (labelOAMResourceType, "TRAIT")] }]

/-- Modelled from the spec: the single resource the `manualscaler` trait of
the example renders, whose `spec.workloadRef` points at the example workload. -/
def testScalerTraitResource : Unstructured :=
  { testCompWorkload with
    group := "core.oam.dev", version := "v1alpha2", kind := "ManualScalerTrait",
    labels := some
      [(labelAppName, "test-assemble"),
       (labelAppRevision, "test-assemble-v1"),
       (labelAppRevisionHash, "85f7dc6d4c"),
       (labelAppComponent, "test-comp"),
       (labelAppComponentRevision, "test-comp-v1"),
       (traitTypeLabel, "manualscaler"),
       (labelOAMResourceType, "TRAIT")],
    spec := .obj
      [("replicaCount", .num 3),
       ("workloadRef", .obj
         [("apiVersion", .str "apps/v1"),
          ("kind", .str "Deployment"),
          ("name", .str "test-comp")])] }

/-- Modelled from the spec: the grouped assembly output of the example — one
workload for `test-comp` and three trait-group resources (two from `ingress`,
one from `manualscaler`). -/
def testAssembleWorkloads : List Unstructured := [testCompWorkload]

/-- Modelled from the spec: the example's trait group for `test-comp`. -/
def testAssembleTraits : List Unstructured :=
  testIngressTraitResources ++ [testScalerTraitResource]

/-- Modelled from the spec: `AssembledManifests()` of the example — all
assembled resources. -/
def testAssembleManifests : List Unstructured :=
  testAssembleWorkloads ++ testAssembleTraits

/-! ### Derived predicates and concrete fixtures used by the theorems -/

/-- The three workload group/kinds `PrepareWorkloadForRollout` knows how to
prepare: kruise CloneSet, kruise advanced StatefulSet, apps/v1 Deployment. -/
def knownRolloutKind (wl : Unstructured) : Bool :=
  (wl.group == kruiseGroup && (wl.kind == "CloneSet" || wl.kind == "StatefulSet")) ||
  (wl.group == "apps" && wl.kind == "Deployment")

/-- A Go map value has unique keys. -/
def keysNodup (m : GoStrMap) : Prop :=
  ((m.getD []).map Prod.fst).Nodup

/-- A workload of a group/kind outside the known rollout set, carrying a
controller owner reference. -/
def wlUnknownKind : Unstructured :=
  { group := "example.com", version := "v1", kind := "CronTab", name := "w1",
    namespc := "default", labels := none, annots := none,
    ownerReferences :=
      [{ apiVersion := "core.oam.dev/v1beta1", kind := "Application",
         name := "app", controller := some true }],
    spec := .obj [] }

/-- A workload with no owner references at all. -/
def wlNoOwner : Unstructured :=
  { group := "apps", version := "v1", kind := "Deployment", name := "w2",
    namespc := "default", labels := none, annots := none,
    ownerReferences := [], spec := .obj [] }

/-- The controller owner reference of the sample Deployment. -/
def sampleOwnerRef : OwnerRef :=
  { apiVersion := "core.oam.dev/v1beta1", kind := "Application",
    name := "test-assemble", controller := some true }

/-- An apps/v1 Deployment workload with a controller owner reference and an
empty spec. -/
def sampleDeployment : Unstructured :=
  { group := "apps", version := "v1", kind := "Deployment", name := "test-comp",
    namespc := "default", labels := none, annots := none,
    ownerReferences := [sampleOwnerRef], spec := .obj [] }

/-- A stamped workload: named after its component, carrying the
component-revision label. -/
def wlStamped : Unstructured :=
  { group := "apps", version := "v1", kind := "Deployment", name := "test-comp",
    namespc := "default",
    labels := some [(labelAppComponentRevision, "test-comp-v2")],
    annots := none, ownerReferences := [sampleOwnerRef], spec := .obj [] }

/-- A Helm release object: named `test-rls`, chart `podinfo`. -/
def helmRls : JVal :=
  .obj
    [("metadata", .obj [("name", .str "test-rls")]),
     ("spec", .obj [("chart", .obj [("spec", .obj [("chart", .str "podinfo")])])])]

/-- A Helm-based component carrying that release. -/
def helmComp : Component := { helm := some { release := some helmRls } }

/-- The live workload Helm created, with matching provenance metadata. -/
def helmLiveObj : Unstructured :=
  { group := "apps", version := "v1", kind := "Deployment",
    name := "test-rls-podinfo", namespc := "default",
    labels := some [("app.kubernetes.io/managed-by", "Helm")],
    annots := some
      [("meta.helm.sh/release-name", "test-rls"),
       ("meta.helm.sh/release-namespace", "default")],
    ownerReferences := [], spec := .obj [] }

/-- The assembled (template-rendered) workload the discovery option receives. -/
def helmWl : Unstructured :=
  { group := "apps", version := "v1", kind := "Deployment", name := "test-comp",
    namespc := "default", labels := none, annots := none,
    ownerReferences := [], spec := .obj [] }

/-- A cluster holding exactly the live Helm workload. -/
def helmStoreOK : HelmStore :=
  fun ns name =>
    if ns = "default" ∧ name = "test-rls-podinfo" then some helmLiveObj else none

/-- A cluster agreeing with `helmStoreOK` on the qualified name but differing
everywhere else. -/
def helmStoreB : HelmStore :=
  fun ns name =>
    if ns = "default" ∧ name = "test-rls-podinfo" then some helmLiveObj else some helmWl

/-- An empty cluster. -/
def emptyHelmStore : HelmStore := fun _ _ => none

/-- Two component traits differing only in their raw trait bytes. -/
def ctA : ComponentTrait := { trait := [0], dataOutputs := [], dataInputs := [] }

/-- See `ctA`. -/
def ctB : ComponentTrait := { trait := [1], dataOutputs := [], dataInputs := [] }

/-- Sample source map for the merge theorems. -/
def mergeSrcEx : GoStrMap := some [("a", "1"), ("b", "2")]

/-- Sample destination map for the merge theorems. -/
def mergeDstEx : GoStrMap := some [("b", "3")]

/-- The merge of the sample maps. -/
def mergeResEx : List (String × String) := [("a", "1"), ("b", "3")]

instance : Infinite ComponentTrait :=
  Infinite.of_injective (fun n => ComponentTrait.mk (List.replicate n 0) [] [])
    (fun a b h => by
      simpa using congrArg (fun ct : ComponentTrait => ct.trait.length) h)

/-! ## Helper lemmas -/

theorem alookup_append {α : Type} (l1 l2 : List (String × α)) (k : String) :
    alookup (l1 ++ l2) k =
      match alookup l1 k with
      | some v => some v
      | none => alookup l2 k := by
  induction l1 with
  | nil => simp [alookup]
  | cons p t ih =>
    by_cases hk : k = p.1
    · simp [alookup, hk]
    · simp [alookup, hk, ih]

theorem alookup_filter_self {α : Type} (m : List (String × α)) (k : String) :
    alookup (m.filter (fun p => p.1 != k)) k = none := by
  induction m with
  | nil => rfl
  | cons p t ih =>
    by_cases hp : p.1 = k
    · simpa [List.filter_cons, hp] using ih
    · have : (p.1 != k) = true := by simpa using hp
      simp [List.filter_cons, this, alookup, Ne.symm hp, ih]

theorem alookup_filter_ne {α : Type} (m : List (String × α)) (k k' : String)
    (h : k' ≠ k) :
    alookup (m.filter (fun p => p.1 != k)) k' = alookup m k' := by
  induction m with
  | nil => rfl
  | cons p t ih =>
    by_cases hp : p.1 = k
    · have hk' : k' ≠ p.1 := fun he => h (he.trans hp)
      simp [List.filter_cons, hp, alookup, hk', h, ih]
    · have : (p.1 != k) = true := by simpa using hp
      by_cases hk' : k' = p.1
      · simp [List.filter_cons, this, alookup, hk']
      · simp [List.filter_cons, this, alookup, hk', ih]

theorem alookup_assocSet_self {α : Type} (m : List (String × α)) (k : String) (v : α) :
    alookup (assocSet m k v) k = some v := by
  rw [assocSet, alookup_append, alookup_filter_self]
  simp [alookup]

theorem alookup_assocSet_ne {α : Type} (m : List (String × α)) (k k' : String) (v : α)
    (h : k' ≠ k) :
    alookup (assocSet m k v) k' = alookup m k' := by
  rw [assocSet, alookup_append, alookup_filter_ne _ _ _ h]
  cases halt : alookup m k' with
  | some w => rfl
  | none => simp [alookup, h]

theorem alookup_none_of_not_mem {α : Type} (m : List (String × α)) (k : String)
    (h : k ∉ m.map Prod.fst) :
    alookup m k = none := by
  induction m with
  | nil => rfl
  | cons p t ih =>
    simp only [List.map_cons, List.mem_cons] at h
    push_neg at h
    simp [alookup, h.1, ih h.2]

theorem alookup_foldl_assocSet (l init : List (String × String)) (k : String)
    (hnd : (l.map Prod.fst).Nodup) :
    alookup (l.foldl (fun r p => assocSet r p.1 p.2) init) k =
      match alookup l k with
      | some v => some v
      | none => alookup init k := by
  induction l generalizing init with
  | nil => simp [alookup]
  | cons p t ih =>
    simp only [List.map_cons, List.nodup_cons] at hnd
    rw [List.foldl_cons, ih _ hnd.2]
    by_cases hk : k = p.1
    · subst hk
      rw [alookup_none_of_not_mem t p.1 hnd.1, alookup_assocSet_self]
      simp [alookup]
    · rw [alookup_assocSet_ne _ _ _ _ hk]
      simp [alookup, hk]

theorem string_data_append (s t : String) : (s ++ t).data = s.data ++ t.data := by
  cases s; cases t; rfl

theorem string_append_cancel_left (s a b : String) (h : s ++ a = s ++ b) : a = b := by
  have hd := congrArg String.data h
  rw [string_data_append, string_data_append] at hd
  exact String.ext (List.append_cancel_left hd)

theorem foldl_fnv_lt (l : List Nat) :
    ∀ h : Nat, h < 4294967296 →
      l.foldl (fun h b => ((h ^^^ (b % 256)) * 16777619) % 4294967296) h < 4294967296 := by
  induction l with
  | nil => intro h hh; simpa using hh
  | cons b t ih =>
    intro h hh
    rw [List.foldl_cons]
    exact ih _ (Nat.mod_lt _ (by norm_num))

theorem fnv32a_lt (bytes : List Nat) : fnv32a bytes < 4294967296 :=
  foldl_fnv_lt bytes 2166136261 (by norm_num)

/-! ## Claim theorems -/

/-- C1: for every assembled workload (one carrying a controller owner
reference, as stamping guarantees) whose group/kind is not one of the three
known kinds, `PrepareWorkloadForRollout` returns the explicit unknown-type
error — never success and never a silent skip. -/
theorem c1_unknown_kind_always_errors (wl : Unstructured)
    (hown : (GetControllerOf wl).isSome) (hunk : knownRolloutKind wl = false) :
    PrepareWorkloadForRollout wl = some (.error (unknownTypeMsg wl)) := by
  have h1 : ¬(wl.group = kruiseGroup ∧ wl.kind = "CloneSet") := by
    rintro ⟨ha, hb⟩; simp [knownRolloutKind, ha, hb] at hunk
  have h2 : ¬(wl.group = kruiseGroup ∧ wl.kind = "StatefulSet") := by
    rintro ⟨ha, hb⟩; simp [knownRolloutKind, ha, hb] at hunk
  have h3 : ¬(wl.group = "apps" ∧ wl.kind = "Deployment") := by
    rintro ⟨ha, hb⟩; simp [knownRolloutKind, ha, hb] at hunk
  obtain ⟨r, hr⟩ := Option.isSome_iff_exists.mp hown
  unfold PrepareWorkloadForRollout
  rw [hr, if_neg h1, if_neg h2, if_neg h3]

/-- C1 witness: a `example.com/v1 CronTab` workload with a controller owner
reference gets the unknown-type error. -/
theorem c1_witness :
    PrepareWorkloadForRollout wlUnknownKind = some (.error (unknownTypeMsg wlUnknownKind)) :=
  c1_unknown_kind_always_errors wlUnknownKind (by rfl) (by rfl)

/-- C5 (bug evidence): on an apps/v1 Deployment with a controller owner
reference, the option sets `spec.paused` to true but returns the workload with
its owner references untouched — the `Controller` bit is still `true`, because
the code mutates the copy returned by `metav1.GetControllerOf` rather than
writing back through `SetOwnerReferences`. -/
theorem c5_controller_bit_not_cleared :
    PrepareWorkloadForRollout sampleDeployment =
      some (.ok { sampleDeployment with spec := .obj [("paused", .bool true)] }) ∧
    ({ sampleDeployment with spec := .obj [("paused", .bool true)] } : Unstructured).ownerReferences
      = [sampleOwnerRef] ∧
    sampleOwnerRef.controller = some true :=
  ⟨rfl, rfl, rfl⟩

/-- C6: `PrepareWorkloadForRollout` presupposes a controller owner reference:
without one it crashes (the `none` of the model, the nil-pointer dereference
on `GetControllerOf`'s result) instead of returning an error, and with one the
crash branch is unreachable (the option always produces a result). -/
theorem c6_nil_owner_crash (wl : Unstructured) :
    (GetControllerOf wl = none → PrepareWorkloadForRollout wl = none) ∧
    ((GetControllerOf wl).isSome → (PrepareWorkloadForRollout wl).isSome) := by
  constructor
  · intro h
    unfold PrepareWorkloadForRollout
    rw [h]
  · intro h
    obtain ⟨r, hr⟩ := Option.isSome_iff_exists.mp h
    unfold PrepareWorkloadForRollout
    rw [hr]
    simp

/-- C6 witness: a workload with no owner references crashes the option; one
with a controller owner reference does not. -/
theorem c6_witness :
    PrepareWorkloadForRollout wlNoOwner = none ∧
    (PrepareWorkloadForRollout wlUnknownKind).isSome :=
  ⟨(c6_nil_owner_crash wlNoOwner).1 (by rfl),
   (c6_nil_owner_crash wlUnknownKind).2 (by rfl)⟩

/-- C3: the naming-override option always succeeds, changes nothing but the
name, and sets the name to the component-revision identity read from the
workload's own label set; a workload of an in-place-upgradable kind skips the
option and keeps the component name. -/
theorem c3_naming_override (wl : Unstructured) (compName : String)
    (hstamped : wl.name = compName) :
    NameNonInplaceUpgradableWorkload wl =
      .ok { wl with name := goMapGet wl.labels labelAppComponentRevision } ∧
    finalizeWorkloadName false wl =
      .ok { wl with name := goMapGet wl.labels labelAppComponentRevision } ∧
    finalizeWorkloadName true wl = .ok wl ∧
    (finalizeWorkloadName true wl).map (fun w => w.name) = .ok compName := by
  refine ⟨rfl, rfl, rfl, ?_⟩
  simp [finalizeWorkloadName, Except.map, hstamped]

/-- C3 witness: on the stamped sample workload, the option renames to the
revision label value, and the in-place-upgradable path keeps the component
name. -/
theorem c3_witness :
    NameNonInplaceUpgradableWorkload wlStamped =
      .ok { wlStamped with name := goMapGet wlStamped.labels labelAppComponentRevision } ∧
    (finalizeWorkloadName true wlStamped).map (fun w => w.name) = .ok "test-comp" :=
  ⟨(c3_naming_override wlStamped "test-comp" rfl).1,
   (c3_naming_override wlStamped "test-comp" rfl).2.2.2⟩

/-- C9: the Helm discovery option leaves every non-Helm component's workload
completely unchanged and returns no error: the external read and the
replace-with-live-object step apply only to Helm-based components. -/
theorem c9_non_helm_untouched (store : HelmStore) (wl : Unstructured)
    (comp : Option Component)
    (h : comp = none ∨ ∃ c, comp = some c ∧ c.helm = none) :
    discoverHelmModuleWorkload store wl comp = .ok wl := by
  rcases h with h | ⟨c, hc, hh⟩
  · rw [h]; rfl
  · rw [hc]
    unfold discoverHelmModuleWorkload
    dsimp only
    rw [hh]

/-- C9 witness: a nil component and a component with a nil Helm spec both pass
through unchanged. -/
theorem c9_witness :
    discoverHelmModuleWorkload emptyHelmStore helmWl none = .ok helmWl ∧
    discoverHelmModuleWorkload emptyHelmStore helmWl (some { helm := none }) = .ok helmWl :=
  ⟨c9_non_helm_untouched emptyHelmStore helmWl none (Or.inl rfl),
   c9_non_helm_untouched emptyHelmStore helmWl (some { helm := none })
     (Or.inr ⟨{ helm := none }, rfl, rfl⟩)⟩

/-- C2: for a Helm-based component whose release parses and carries a chart
name, the qualified workload name is the release name when it contains the
chart name; otherwise releaseName-chartName, truncated to its first 63
characters with one trailing "-" trimmed when over 63; and the discovery
option reads the cluster only at exactly that (namespace, name). -/
theorem c2_helm_qualified_name (store : HelmStore) (wl : Unstructured)
    (c : Component) (h : Helm) (rls : JVal) (chartName : String)
    (hhelm : c.helm = some h) (hrel : h.release = some rls)
    (hchart : jGet rls helmChartNamePath = some (.str chartName)) :
    (strContains (jGetName rls) chartName = true →
      qualifiedWorkloadName (jGetName rls) chartName = jGetName rls) ∧
    (strContains (jGetName rls) chartName = false →
      (jGetName rls ++ "-" ++ chartName).length ≤ 63 →
      qualifiedWorkloadName (jGetName rls) chartName = jGetName rls ++ "-" ++ chartName) ∧
    (strContains (jGetName rls) chartName = false →
      (jGetName rls ++ "-" ++ chartName).length > 63 →
      qualifiedWorkloadName (jGetName rls) chartName =
        trimDashSuffix ((jGetName rls ++ "-" ++ chartName).take 63)) ∧
    (∀ store2 : HelmStore,
      store2 wl.namespc (qualifiedWorkloadName (jGetName rls) chartName) =
        store wl.namespc (qualifiedWorkloadName (jGetName rls) chartName) →
      discoverHelmModuleWorkload store2 wl (some c) =
        discoverHelmModuleWorkload store wl (some c)) := by
  refine ⟨?_, ?_, ?_, ?_⟩
  · intro hc
    simp [qualifiedWorkloadName, hc]
  · intro hc hlen
    rw [qualifiedWorkloadName, if_neg (by simp [hc])]
    simp only []
    rw [if_neg (by omega)]
  · intro hc hlen
    rw [qualifiedWorkloadName, if_neg (by simp [hc])]
    simp only []
    rw [if_pos (by omega)]
  · intro store2 hst
    unfold discoverHelmModuleWorkload
    dsimp only
    rw [hhelm]; dsimp only
    rw [hrel]; dsimp only
    rw [hchart]; dsimp only
    rw [hst]

/-- C2 witness: release `test-rls` with chart `podinfo` (not contained in the
release name, short enough) yields `test-rls-podinfo`, and two clusters that
agree on that name give identical discovery results. -/
theorem c2_witness :
    qualifiedWorkloadName (jGetName helmRls) "podinfo" =
      jGetName helmRls ++ "-" ++ "podinfo" ∧
    discoverHelmModuleWorkload helmStoreB helmWl (some helmComp) =
      discoverHelmModuleWorkload helmStoreOK helmWl (some helmComp) :=
  ⟨(c2_helm_qualified_name helmStoreOK helmWl helmComp
      { release := some helmRls } helmRls "podinfo" rfl rfl rfl).2.1 (by rfl) (by decide),
   (c2_helm_qualified_name helmStoreOK helmWl helmComp
      { release := some helmRls } helmRls "podinfo" rfl rfl rfl).2.2.2 helmStoreB (by rfl)⟩

/-- C4: for a Helm-based component (release parsed, chart name present),
discovery errors in exactly the two found/not-found cases — no live object
under the qualified name (the not-found error, retryable), or a live object
whose `meta.helm.sh/release-name` / `meta.helm.sh/release-namespace`
annotations or `app.kubernetes.io/managed-by` label do not match the release
name, namespace and "Helm" (provenance mismatch) — and only when all three
match is the workload replaced by the live object with no error. -/
theorem c4_helm_discovery_error_cases (store : HelmStore) (wl : Unstructured)
    (c : Component) (h : Helm) (rls : JVal) (chartName : String)
    (hhelm : c.helm = some h) (hrel : h.release = some rls)
    (hchart : jGet rls helmChartNamePath = some (.str chartName)) :
    (store wl.namespc (qualifiedWorkloadName (jGetName rls) chartName) = none →
      discoverHelmModuleWorkload store wl (some c) = .error errHelmWorkloadNotFound) ∧
    (∀ obj, store wl.namespc (qualifiedWorkloadName (jGetName rls) chartName) = some obj →
      helmProvenanceMatch obj (jGetName rls) wl.namespc = false →
      discoverHelmModuleWorkload store wl (some c) =
        .error (helmMismatchMsg (jGetName rls) wl.namespc)) ∧
    (∀ obj, store wl.namespc (qualifiedWorkloadName (jGetName rls) chartName) = some obj →
      helmProvenanceMatch obj (jGetName rls) wl.namespc = true →
      discoverHelmModuleWorkload store wl (some c) = .ok obj) := by
  refine ⟨?_, ?_, ?_⟩
  · intro hs
    unfold discoverHelmModuleWorkload
    dsimp only
    rw [hhelm]; dsimp only
    rw [hrel]; dsimp only
    rw [hchart]; dsimp only
    rw [hs]
  · intro obj hs hm
    unfold discoverHelmModuleWorkload
    dsimp only
    rw [hhelm]; dsimp only
    rw [hrel]; dsimp only
    rw [hchart]; dsimp only
    rw [hs]
    simp [hm]
  · intro obj hs hm
    unfold discoverHelmModuleWorkload
    dsimp only
    rw [hhelm]; dsimp only
    rw [hrel]; dsimp only
    rw [hchart]; dsimp only
    rw [hs]
    simp [hm]

/-- C4 witness: on the empty cluster discovery fails with the not-found error;
on the cluster holding the matching live object, the workload is replaced by
it with no error. -/
theorem c4_witness :
    discoverHelmModuleWorkload emptyHelmStore helmWl (some helmComp) =
      .error errHelmWorkloadNotFound ∧
    discoverHelmModuleWorkload helmStoreOK helmWl (some helmComp) = .ok helmLiveObj :=
  ⟨(c4_helm_discovery_error_cases emptyHelmStore helmWl helmComp
      { release := some helmRls } helmRls "podinfo" rfl rfl rfl).1 (by rfl),
   (c4_helm_discovery_error_cases helmStoreOK helmWl helmComp
      { release := some helmRls } helmRls "podinfo" rfl rfl rfl).2.2 helmLiveObj
     (by rfl) (by rfl)⟩

set_option maxRecDepth 100000 in
/-- C7 counterexample: it is NOT true that two different component traits of
the same type always get different generated names — the name depends on the
trait value only through a 32-bit FNV hash, so among the infinitely many
trait values two distinct ones share a name (pigeonhole). -/
theorem c7_counterexample :
    ¬ (∀ ct1 ct2 : ComponentTrait, ct1 ≠ ct2 →
        GenTraitName "test-comp" ct1 "scaler" ≠ GenTraitName "test-comp" ct2 "scaler") := by
  intro hinj
  obtain ⟨x, y, hxy, hfx⟩ := Finite.exists_ne_map_eq_of_infinite
    (fun ct : ComponentTrait =>
      (⟨fnv32a (deepHashBytes ct), fnv32a_lt _⟩ : Fin 4294967296))
  apply hinj x y hxy
  have hv : fnv32a (deepHashBytes x) = fnv32a (deepHashBytes y) :=
    congrArg Fin.val hfx
  simp [GenTraitName, ComputeHash, hv]

/-- C7 (amended): `GenTraitName` is a deterministic function of component
name, trait value and trait type, of the form componentName-middle-hash with
middle the lower-cased trait type (or "trait" for empty/dummy) and hash the
FNV-32a content hash of the deep print of the whole trait value; two
same-type traits get different names whenever their content hashes differ
(the 32-bit hash does not rule out collisions between different specs). -/
theorem c7_trait_name_shape (c t : String) (ct ct1 ct2 : ComponentTrait)
    (hne : ComputeHash ct1 ≠ ComputeHash ct2) :
    GenTraitName c ct t = c ++ "-" ++ traitMiddleName t ++ "-" ++ ComputeHash ct ∧
    traitMiddleName t = (if t ≠ "" ∧ t ≠ Dummy then t.toLower else TraitPrefixKey) ∧
    ComputeHash ct = SafeEncodeString (Nat.repr (fnv32a (deepHashBytes ct))) ∧
    GenTraitName c ct1 t ≠ GenTraitName c ct2 t := by
  refine ⟨rfl, rfl, rfl, ?_⟩
  intro heq
  apply hne
  have heq2 : (c ++ "-" ++ traitMiddleName t ++ "-") ++ ComputeHash ct1 =
      (c ++ "-" ++ traitMiddleName t ++ "-") ++ ComputeHash ct2 := by
    simpa [GenTraitName, String.append_assoc] using heq
  exact string_append_cancel_left _ _ _ heq2

set_option maxRecDepth 100000 in
/-- C7 witness: two concrete traits differing in one raw byte have different
content hashes, hence different generated names of the stated shape. -/
theorem c7_witness :
    GenTraitName "test-comp" ctA "scaler" =
      "test-comp" ++ "-" ++ traitMiddleName "scaler" ++ "-" ++ ComputeHash ctA ∧
    GenTraitName "test-comp" ctA "scaler" ≠ GenTraitName "test-comp" ctB "scaler" := by
  have h := c7_trait_name_shape "test-comp" "scaler" ctA ctA ctB (by decide)
  exact ⟨h.1, h.2.2.2⟩

/-- C10: `MergeMapOverrideWithDst` returns nil exactly when both arguments are
nil (so an empty non-nil argument yields a non-nil result), and the merged
map binds every key to the destination's value when the destination has the
key, and to the source's value otherwise. -/
theorem c10_merge_map_override (src dst : GoStrMap)
    (hs : keysNodup src) (hd : keysNodup dst) :
    (MergeMapOverrideWithDst src dst = none ↔ src = none ∧ dst = none) ∧
    (∀ l, MergeMapOverrideWithDst src dst = some l →
      ∀ k, alookup l k =
        match goMapFind dst k with
        | some v => some v
        | none => goMapFind src k) := by
  constructor
  · cases src <;> cases dst <;> simp [MergeMapOverrideWithDst]
  · intro l hl k
    cases src with
    | none =>
      cases dst with
      | none => simp [MergeMapOverrideWithDst] at hl
      | some d =>
        have hd2 : (d.map Prod.fst).Nodup := hd
        simp only [MergeMapOverrideWithDst, Option.getD, Option.some.injEq] at hl
        subst hl
        rw [List.foldl_nil, alookup_foldl_assocSet d [] k hd2]
        cases hdk : alookup d k <;> simp [goMapFind, hdk, alookup]
    | some s =>
      cases dst with
      | none =>
        have hs2 : (s.map Prod.fst).Nodup := hs
        simp only [MergeMapOverrideWithDst, Option.getD, Option.some.injEq] at hl
        subst hl
        rw [List.foldl_nil, alookup_foldl_assocSet s [] k hs2]
        cases hsk : alookup s k <;> simp [goMapFind, hsk, alookup]
      | some d =>
        have hs2 : (s.map Prod.fst).Nodup := hs
        have hd2 : (d.map Prod.fst).Nodup := hd
        simp only [MergeMapOverrideWithDst, Option.getD, Option.some.injEq] at hl
        subst hl
        rw [alookup_foldl_assocSet d
          (List.foldl (fun r p => assocSet r p.1 p.2) [] s) k hd2]
        cases hdk : alookup d k with
        | some v => simp [goMapFind, hdk]
        | none =>
          rw [alookup_foldl_assocSet s [] k hs2]
          cases hsk : alookup s k <;> simp [goMapFind, hdk, hsk, alookup]

/-- C10 witness: merging `{a:1, b:2}` with destination `{b:3}` yields a
non-nil map whose value at `b` is the destination's and at `a` the source's. -/
theorem c10_witness :
    (MergeMapOverrideWithDst mergeSrcEx mergeDstEx = none ↔
      mergeSrcEx = none ∧ mergeDstEx = none) ∧
    alookup mergeResEx "b" = some "3" ∧
    alookup mergeResEx "a" = some "1" := by
  have h := c10_merge_map_override mergeSrcEx mergeDstEx
    (by unfold keysNodup; decide) (by unfold keysNodup; decide)
  refine ⟨h.1, ?_, ?_⟩
  · have hb := h.2 mergeResEx rfl "b"
    simpa using hb
  · have ha := h.2 mergeResEx rfl "a"
    simpa using ha

/-- C8: the end-to-end example `test-assemble` (component `test-comp` of type
`webservice` with traits `ingress` and `manualscaler`) assembles to exactly
1 workload and 3 trait resources, 4 in total; the scaler trait's workloadRef
is {apps/v1, Deployment, test-comp}; the workload carries exactly the 7
required label keys and exactly 1 annotation; and its controller owner
reference kind is `Application`. -/
theorem c8_end_to_end_example :
    testAssembleWorkloads.length = 1 ∧
    testAssembleTraits.length = 3 ∧
    testAssembleManifests.length = 4 ∧
    jGet testScalerTraitResource.spec ["workloadRef"] =
      some (.obj
        [("apiVersion", .str "apps/v1"), ("kind", .str "Deployment"),
         ("name", .str "test-comp")]) ∧
    jGet testScalerTraitResource.spec ["workloadRef", "name"] =
      some (.str testCompWorkload.name) ∧
    (testCompWorkload.labels.getD []).map Prod.fst = requiredWorkloadLabelKeys ∧
    requiredWorkloadLabelKeys.length = 7 ∧
    requiredWorkloadLabelKeys.Nodup ∧
    (testCompWorkload.annots.getD []).length = 1 ∧
    (GetControllerOf testCompWorkload).map (fun r => r.kind) = some "Application" := by
  refine ⟨rfl, rfl, rfl, rfl, rfl, rfl, rfl, by decide, rfl, rfl⟩

end Assemble
